import Mathlib

/-!
Verification of the GMGN Solana swap client (`src/client.py`, `src/open_apis.py`).

The client is shallowly embedded: network calls become oracle functions
passed in explicitly, the wall clock of the polling loop is modelled by the
accumulated sleep intervals (each loop iteration advances elapsed time by
`fetch_interval_seconds`, matching `await asyncio.sleep(...)` at the end of
every iteration; the query itself is treated as instantaneous), and the
external cryptographic primitives (the AES-256 block permutation, base58
keypair parsing, UTF-8 decoding) are abstract function parameters.  The
CBC mode of operation, PKCS#7 padding and base64 transport coding that the
source spells out itself are implemented concretely.
-/

namespace Gmgn

/-- Errors raised by the client.  The source raises `Exception` with a
formatted message everywhere; each constructor keeps the data the source
formats into the message. -/
inductive GmgnError where
  /-- `GMGN_SOL_CLIENT: Fee must be less than 5` (fee validation). -/
  | invalidArgument (msg : String)
  /-- `GMGN_SOL_CLIENT: Hex Password must be 64 characters long` and other
  configuration failures in `__init__`. -/
  | config (msg : String)
  /-- Non-200 HTTP status: `GMGN_SOL_CLIENT: GET/POST Error {status}, {url}`. -/
  | http (method : String) (status : Nat) (url : String)
  /-- Envelope `code != 0`: `GMGN_SOL_CLIENT: ... Error {code} - {msg}, {url}`. -/
  | remote (code : Int) (msg : String) (url : String)
  /-- `GMGN_SOL_CLIENT: Transaction {hash} status not found after {timeout} seconds`. -/
  | txTimeout (hash : String) (timeoutSeconds : ℚ)
  deriving DecidableEq, Repr

/-- `TxStatusResponse` from `src/client.py`: terminal-state flags plus error
detail.  `err: any` is modelled as an optional string. -/
structure TxStatusResponse where
  success : Bool
  failed : Bool
  expired : Bool
  err : Option String
  err_code : String
  deriving DecidableEq, Repr

/-- Outcome of `wait_tx_status`: either a status returned after `queries`
attempts, or the timeout exception (which carries the hash and the timeout
value) raised after `queries` attempts. -/
inductive WaitOutcome where
  | status (queries : Nat) (s : TxStatusResponse)
  | timedOut (queries : Nat) (hash : String) (timeoutSeconds : ℚ)
  deriving DecidableEq, Repr

/-- One iteration step of the `while time.time() - start_time < timeout_seconds`
loop of `wait_tx_status`.  `k` is the number of queries already made, so the
elapsed time at the top of the loop is `k * interval` (the loop body ends with
`await asyncio.sleep(fetch_interval_seconds)`).  `q k` is the result of the
`get_tx_status` call of iteration `k`; an `Except.error` is the exception the
`try/except` swallows (it is only logged).  `fuel` bounds the recursion and is
chosen large enough by `wait_tx_status` that it never runs out before the
deadline does. -/
def waitAux (q : Nat → Except GmgnError TxStatusResponse) (hash : String)
    (interval timeout : ℚ) : Nat → Nat → WaitOutcome
  | k, 0 => WaitOutcome.timedOut k hash timeout
  | k, fuel + 1 =>
    if (k : ℚ) * interval < timeout then
      match q k with
      | Except.ok s =>
        if s.success || s.failed || s.expired then WaitOutcome.status (k + 1) s
        else waitAux q hash interval timeout (k + 1) fuel
      | Except.error _ => waitAux q hash interval timeout (k + 1) fuel
    else WaitOutcome.timedOut k hash timeout

/-- Enough fuel that `waitAux` only stops because the deadline elapsed:
any `k` with `k * interval < timeout` satisfies `k < ⌈timeout / interval⌉ + 1`
when `interval > 0`. -/
def waitFuel (interval timeout : ℚ) : Nat :=
  if interval ≤ 0 then 1 else (⌈timeout / interval⌉).toNat + 1

/-- `GMGNSolClient.wait_tx_status` (src/client.py:227-251): poll
`get_tx_status` until a terminal status is observed or the deadline elapses.
`q` is the remote status oracle indexed by attempt number. -/
def wait_tx_status (q : Nat → Except GmgnError TxStatusResponse) (hash : String)
    (fetch_interval_seconds : ℚ) (timeout_seconds : ℚ) : WaitOutcome :=
  waitAux q hash fetch_interval_seconds timeout_seconds 0
    (waitFuel fetch_interval_seconds timeout_seconds)

/-- A status with all three terminal flags false: the "pending" shape. -/
def pendingStatus : TxStatusResponse :=
  { success := false, failed := false, expired := false, err := none, err_code := "" }

/-- A status whose `success` flag is set. -/
def successStatus : TxStatusResponse :=
  { success := true, failed := false, expired := false, err := none, err_code := "" }

/-- Oracle reading statuses off a list; past the end it reports an HTTP error
(never reached in the concrete claims, which stop earlier). -/
def seqOracle (rs : List (Except GmgnError TxStatusResponse)) :
    Nat → Except GmgnError TxStatusResponse :=
  fun k => rs.getD k (Except.error (GmgnError.http "GET" 500 "sol/tx/get_transaction_status"))

/-! ## Symmetric decryption of the at-rest secret (src/client.py:122-130)

Bytes are `Nat` values below 256.  `AES.block_size` is 16.  The AES-256 block
permutation itself is an abstract function parameter (`E` to encrypt, `D` to
decrypt); the CBC chaining, PKCS#7 padding and base64 coding the source relies
on are concrete. -/

/-- Bytewise XOR of two equal-length byte strings (CBC whitening step). -/
def xorBytes (a b : List Nat) : List Nat := List.zipWith Nat.xor a b

/-- PKCS#7 padding to a multiple of the 16-byte block size, as applied by the
encryptor of the at-rest secret (`Crypto.Util.Padding.pad` semantics). -/
def padPKCS7 (m : List Nat) : List Nat :=
  let n := 16 - m.length % 16
  m ++ List.replicate n n

/-- `Crypto.Util.Padding.unpad(data, AES.block_size)`: reject empty input and
input whose length is not a block multiple, read the final byte as the padding
length, require it to be in `1..16` and all padding bytes to agree, then strip
it.  `none` is the `ValueError` the library raises on bad padding. -/
def unpadPKCS7 (data : List Nat) : Option (List Nat) :=
  if data.length = 0 then none
  else if data.length % 16 ≠ 0 then none
  else
    let n := data.getLastD 0
    if n < 1 then none
    else if n > 16 then none
    else if (data.drop (data.length - n)).all (fun x => x = n) then
      some (data.take (data.length - n))
    else none

/-- Split a byte string into consecutive 16-byte blocks (the last block is
shorter when the length is not a multiple of 16). -/
def toBlocks (l : List Nat) : List (List Nat) :=
  if l = [] then [] else l.take 16 :: toBlocks (l.drop 16)
  termination_by l.length
  decreasing_by
    rename_i h
    have hl : 0 < l.length := List.length_pos.mpr h
    simp [List.length_drop]
    omega

/-- CBC-mode encryption with block permutation `E` and running IV `prev`:
`c_i = E (p_i XOR c_(i-1))` with `c_(-1)` the IV.  This is the encryptor side
of the at-rest secret format (not in the source; the source only decrypts). -/
def cbcEnc (E : List Nat → List Nat) (prev : List Nat) : List (List Nat) → List (List Nat)
  | [] => []
  | p :: ps =>
    let c := E (xorBytes p prev)
    c :: cbcEnc E c ps

/-- CBC-mode decryption with block permutation `D`:
`p_i = D c_i XOR c_(i-1)` with `c_(-1)` the IV.  This is what
`AES.new(key, AES.MODE_CBC, iv).decrypt(ciphertext)` computes. -/
def cbcDec (D : List Nat → List Nat) (prev : List Nat) : List (List Nat) → List (List Nat)
  | [] => []
  | c :: cs => xorBytes (D c) prev :: cbcDec D c cs

/-- The base64 alphabet character for a sextet value below 64. -/
def b64CharOf (n : Nat) : Char :=
  if n < 26 then Char.ofNat (65 + n)
  else if n < 52 then Char.ofNat (97 + (n - 26))
  else if n < 62 then Char.ofNat (48 + (n - 52))
  else if n = 62 then '+'
  else '/'

/-- Sextet value of a base64 alphabet character (64 for a non-alphabet one). -/
def b64CharVal (c : Char) : Nat :=
  if 'A' ≤ c ∧ c ≤ 'Z' then c.toNat - 65
  else if 'a' ≤ c ∧ c ≤ 'z' then c.toNat - 97 + 26
  else if '0' ≤ c ∧ c ≤ '9' then c.toNat - 48 + 52
  else if c = '+' then 62
  else if c = '/' then 63
  else 64

/-- Standard base64 encoding of a byte string (`base64.b64encode`). -/
def b64encode : List Nat → List Char
  | [] => []
  | [a] => [b64CharOf (a / 4), b64CharOf (a % 4 * 16), '=', '=']
  | [a, b] => [b64CharOf (a / 4), b64CharOf (a % 4 * 16 + b / 16), b64CharOf (b % 16 * 4), '=']
  | a :: b :: c :: rest =>
    b64CharOf (a / 4) :: b64CharOf (a % 4 * 16 + b / 16) ::
      b64CharOf (b % 16 * 4 + c / 64) :: b64CharOf (c % 64) :: b64encode rest

/-- Standard base64 decoding of a character string (`base64.b64decode`).
A `=` in the third or fourth position closes the string (padding occurs only
at the end of well-formed base64, which is the only input this client feeds
to the decoder). -/
def b64decode : List Char → List Nat
  | w :: x :: y :: z :: rest =>
    if y = '=' then [b64CharVal w * 4 + b64CharVal x / 16]
    else if z = '=' then
      [b64CharVal w * 4 + b64CharVal x / 16, b64CharVal x % 16 * 16 + b64CharVal y / 4]
    else
      (b64CharVal w * 4 + b64CharVal x / 16) :: (b64CharVal x % 16 * 16 + b64CharVal y / 4) ::
        (b64CharVal y % 4 * 64 + b64CharVal z) :: b64decode rest
  | _ => []

/-- The decryption path of `GMGNSolClient.__init__` (src/client.py:125-129):
base64-decode the stored secret, split the first `AES.block_size` bytes off as
the IV, CBC-decrypt the remainder with block permutation `D`, and strip the
PKCS#7 padding.  `none` is the padding `ValueError`. -/
def decryptSecret (D : List Nat → List Nat) (secret : List Char) : Option (List Nat) :=
  let encryptedBytes := b64decode secret
  let iv := encryptedBytes.take 16
  let ciphertext := encryptedBytes.drop 16
  unpadPKCS7 ((cbcDec D iv (toBlocks ciphertext)).flatten)

/-- The encryption direction described by the spec's at-rest secret format
(not in the source, which only decrypts): PKCS#7-pad the plaintext,
CBC-encrypt it with block permutation `E` under `iv`, and base64-encode
`IV || ciphertext`. -/
def encryptSecret (E : List Nat → List Nat) (iv pt : List Nat) : List Char :=
  b64encode (iv ++ (cbcEnc E iv (toBlocks (padPKCS7 pt))).flatten)

/-! ## Client construction (src/client.py:115-133)

`__init__` resolves the private-key string (possibly reading it from a file —
the file read itself is I/O and out of the model; `pvkInput` is the resolved
string), optionally decrypts it, then stores `self._pvk`, `self.signer` and
`self.signer_address`.  The base58 keypair parsing of `solders` is abstracted
into `addrOf` (key material string to derived address) and UTF-8 decoding of
the decrypted bytes into `bytesStr`. -/

/-- The attributes `__init__` leaves on the constructed client.  The keypair
object itself is determined by `_pvk` (it is
`Keypair.from_base58_string(_pvk)`), so only the key string and the derived
address are kept. -/
structure ClientState where
  _pvk : String
  signer_address : String
  deriving DecidableEq, Repr

/-- `GMGNSolClient.__init__` after the private-key string has been resolved
(`pvkInput`) and the AES key prompt has been answered (`aesKeyInput`; the
empty string means "not encrypted", matching the truthiness test
`if aes_256_hex_key:`).  `cipherOf k` is the AES-256 block decryption
permutation for the 64-hex-character key `k`. -/
def initClient (cipherOf : String → (List Nat → List Nat)) (addrOf : String → String)
    (bytesStr : List Nat → Option String) (pvkInput : String) (aesKeyInput : String) :
    Except GmgnError ClientState :=
  if aesKeyInput ≠ "" then
    if aesKeyInput.length ≠ 64 then
      Except.error (GmgnError.config "GMGN_SOL_CLIENT: Hex Password must be 64 characters long")
    else
      match decryptSecret (cipherOf aesKeyInput) pvkInput.toList with
      | none => Except.error (GmgnError.config "Padding is incorrect.")
      | some decryptedBytes =>
        match bytesStr decryptedBytes with
        | none => Except.error (GmgnError.config "invalid utf-8 in decrypted key")
        | some pvk => Except.ok { _pvk := pvk, signer_address := addrOf pvk }
  else Except.ok { _pvk := pvkInput, signer_address := addrOf pvkInput }

/-! ## Quote request, submission and the swap orchestrator
(src/client.py:169-220, 253-309)

Network request/response pairs become oracle functions in a `SwapEnv`; the
requests a run issues are collected in a `NetEvent` trace. -/

/-- `SwapMode` enum (src/client.py:108-110). -/
inductive SwapMode where
  | EXACT_IN
  | EXACT_OUT
  deriving DecidableEq, Repr

/-- The wire value of a `SwapMode` (`.value` of the Python enum). -/
def SwapMode.value : SwapMode → String
  | SwapMode.EXACT_IN => "ExactIn"
  | SwapMode.EXACT_OUT => "ExactOut"

/-- The caller-side arguments of `get_swap_route` / `swap`.  `none` models
Python `None`; note the source treats `None` and falsy values (empty string,
`False`) alike when it normalizes them. -/
structure SwapArgs where
  token_in_address : String
  token_out_address : String
  in_amount : String
  slippage : ℚ
  swap_mode : SwapMode
  fee : ℚ
  from_address : Option String
  is_anti_mev : Bool
  partner : Option String
  deriving DecidableEq, Repr

/-- The query-parameter set `get_swap_route` sends to
`sol/tx/get_swap_route` after normalization: `from_address` filled with the
signer address when falsy, `is_anti_mev` present only when truthy, `partner`
present only when truthy. -/
structure SwapRouteRequest where
  token_in_address : String
  token_out_address : String
  in_amount : String
  slippage : ℚ
  swap_mode : SwapMode
  fee : ℚ
  from_address : String
  is_anti_mev : Option Bool
  partner : Option String
  deriving DecidableEq, Repr

/-- `SwapRouteQuote` response payload (src/client.py:29-42).  `platformFee`
is `any` in the source and untyped route-plan entries are kept as strings. -/
structure SwapRouteQuote where
  inputMint : String
  inAmount : String
  outputMint : String
  outAmount : String
  otherAmountThreshold : String
  swapMode : String
  slippageBps : Int
  platformFee : Option String
  priceImpactPct : String
  routePlan : List String
  contextSlot : Nat
  timeTaken : ℚ
  deriving DecidableEq, Repr

/-- `SwapRouteRawTx` response payload (src/client.py:60-65). -/
structure SwapRouteRawTx where
  swapTransaction : String
  lastValidBlockHeight : Nat
  prioritizationFeeLamports : Nat
  recentBlockhash : String
  deriving DecidableEq, Repr

/-- `SwapRouteResponse` (src/client.py:68-71). -/
structure SwapRouteResponse where
  quote : SwapRouteQuote
  raw_tx : SwapRouteRawTx
  deriving DecidableEq, Repr

/-- `SubmitTxResponse` (src/client.py:74-76): the direct-path receipt. -/
structure SubmitTxResponse where
  hash : String
  deriving DecidableEq, Repr

/-- `SubmitAntiMevTxResponse` (src/client.py:79-83): the relay-path receipt. -/
structure SubmitAntiMevTxResponse where
  bundle_id : String
  last_valid_block_number : Nat
  tx_hash : String
  deriving DecidableEq, Repr

/-- An outgoing network request of the client, as observed on the wire.
`pollStatus` records entering the polling loop of `wait_tx_status` with a
given hash and watermark height (the individual repeated status queries are
served by the oracle inside `wait_tx_status`). -/
inductive NetEvent where
  | getRoute (req : SwapRouteRequest)
  | postSubmitTx (signed_tx : String)
  | postSubmitAntiMev (signed_tx : String) (from_address : String)
  | pollStatus (hash : String) (last_valid_height : Nat)
  deriving DecidableEq, Repr

/-- The remote service and local crypto, as oracles: `route` answers
`GET sol/tx/get_swap_route`, `submitDirect` answers
`POST sol/tx/submit_signed_transaction`, `submitAntiMev` answers
`POST sol/tx/submit_tx_anti_mev_mode` (signed tx and `from_address` body
fields), `status hash lvh k` answers the `k`-th
`GET sol/tx/get_transaction_status` for `hash`, and `sign` is
`sign_raw_tx` (pure local signing, abstracted). -/
structure SwapEnv where
  route : SwapRouteRequest → Except GmgnError SwapRouteResponse
  submitDirect : String → Except GmgnError SubmitTxResponse
  submitAntiMev : String → String → Except GmgnError SubmitAntiMevTxResponse
  status : String → Nat → Nat → Except GmgnError TxStatusResponse
  sign : String → String

/-- Python truthiness defaulting used for `from_address`
(`if not from_address: from_address = self.signer_address`): `None` and the
empty string both fall back to the signer address. -/
def orSignerAddress (signer : String) : Option String → String
  | none => signer
  | some s => if s = "" then signer else s

/-- The `params` mapping `get_swap_route` forwards (src/client.py:204-211):
`is_anti_mev` is dropped when falsy, `partner` is dropped when falsy,
`from_address` defaults to the signer address when falsy. -/
def buildSwapRouteRequest (signer : String) (a : SwapArgs) : SwapRouteRequest :=
  { token_in_address := a.token_in_address
    token_out_address := a.token_out_address
    in_amount := a.in_amount
    slippage := a.slippage
    swap_mode := a.swap_mode
    fee := a.fee
    from_address := orSignerAddress signer a.from_address
    is_anti_mev := if a.is_anti_mev then some true else none
    partner := match a.partner with
      | none => none
      | some p => if p = "" then none else some p }

/-- `GMGNSolClient.get_swap_route` (src/client.py:169-212): reject
`fee > 5` before any request is issued, otherwise send the normalized
query.  The second component is the trace of requests issued. -/
def get_swap_route (signer : String)
    (net : SwapRouteRequest → Except GmgnError SwapRouteResponse) (a : SwapArgs) :
    Except GmgnError SwapRouteResponse × List NetEvent :=
  if a.fee > 5 then
    (Except.error (GmgnError.invalidArgument "GMGN_SOL_CLIENT: Fee must be less than 5"), [])
  else
    let req := buildSwapRouteRequest signer a
    (net req, [NetEvent.getRoute req])

/-- `GMGNSolClient.submit_tx` (src/client.py:214-215). -/
def submit_tx (env : SwapEnv) (signed_tx : String) :
    Except GmgnError SubmitTxResponse × NetEvent :=
  (env.submitDirect signed_tx, NetEvent.postSubmitTx signed_tx)

/-- `GMGNSolClient.submit_anti_mev_tx` (src/client.py:217-220):
`from_address` defaults to the signer address when falsy. -/
def submit_anti_mev_tx (signer : String) (env : SwapEnv) (signed_tx : String)
    (from_address : Option String) :
    Except GmgnError SubmitAntiMevTxResponse × NetEvent :=
  let fa := orSignerAddress signer from_address
  (env.submitAntiMev signed_tx fa, NetEvent.postSubmitAntiMev signed_tx fa)

/-- The submission receipt of `swap`: one of the two mutually exclusive
shapes. -/
inductive SubmitResult where
  | direct (r : SubmitTxResponse)
  | antiMev (r : SubmitAntiMevTxResponse)
  deriving DecidableEq, Repr

/-- `GMGNSolClient.swap` (src/client.py:253-309): quote → sign → submit
(relay path iff `is_anti_mev`, called without a `from_address` argument) →
poll.  Returns the result (or first error) together with the trace of
issued requests.  A polling timeout becomes the raised timeout exception. -/
def swap (signer : String) (env : SwapEnv) (a : SwapArgs)
    (wait_tx_fetch_interval_seconds : ℚ) (wait_tx_timeout_seconds : ℚ) :
    Except GmgnError (SwapRouteResponse × SubmitResult × TxStatusResponse) × List NetEvent :=
  match get_swap_route signer env.route a with
  | (Except.error e, evs) => (Except.error e, evs)
  | (Except.ok quote, evs) =>
    let signed_tx := env.sign quote.raw_tx.swapTransaction
    let last_valid_height := quote.raw_tx.lastValidBlockHeight
    if a.is_anti_mev then
      match submit_anti_mev_tx signer env signed_tx none with
      | (Except.error e, ev) => (Except.error e, evs ++ [ev])
      | (Except.ok r, ev) =>
        let tx_hash := r.tx_hash
        match wait_tx_status (env.status tx_hash last_valid_height) tx_hash
            wait_tx_fetch_interval_seconds wait_tx_timeout_seconds with
        | WaitOutcome.status _ st =>
          (Except.ok (quote, SubmitResult.antiMev r, st),
            evs ++ [ev, NetEvent.pollStatus tx_hash last_valid_height])
        | WaitOutcome.timedOut _ h t =>
          (Except.error (GmgnError.txTimeout h t),
            evs ++ [ev, NetEvent.pollStatus tx_hash last_valid_height])
    else
      match submit_tx env signed_tx with
      | (Except.error e, ev) => (Except.error e, evs ++ [ev])
      | (Except.ok r, ev) =>
        let tx_hash := r.hash
        match wait_tx_status (env.status tx_hash last_valid_height) tx_hash
            wait_tx_fetch_interval_seconds wait_tx_timeout_seconds with
        | WaitOutcome.status _ st =>
          (Except.ok (quote, SubmitResult.direct r, st),
            evs ++ [ev, NetEvent.pollStatus tx_hash last_valid_height])
        | WaitOutcome.timedOut _ h t =>
          (Except.error (GmgnError.txTimeout h t),
            evs ++ [ev, NetEvent.pollStatus tx_hash last_valid_height])

/-- Whether a trace event is one of the two submission operations. -/
def isSubmitEvent : NetEvent → Bool
  | NetEvent.postSubmitTx _ => true
  | NetEvent.postSubmitAntiMev _ _ => true
  | _ => false

/-! ## Concrete sample values (used to instantiate the general theorems) -/

/-- A concrete quote payload. -/
def demoQuote : SwapRouteQuote :=
  { inputMint := "So11111111111111111111111111111111111111112"
    inAmount := "10000000"
    outputMint := "HeLp6NuQkmYB4pYWo2zYs22mESHXPQYzXbB8n4V98jwC"
    outAmount := "123"
    otherAmountThreshold := "120"
    swapMode := "ExactIn"
    slippageBps := 1000
    platformFee := none
    priceImpactPct := "0.1"
    routePlan := []
    contextSlot := 42
    timeTaken := 1/100 }

/-- A concrete raw-transaction payload. -/
def demoRawTx : SwapRouteRawTx :=
  { swapTransaction := "UNSIGNED"
    lastValidBlockHeight := 1000
    prioritizationFeeLamports := 1
    recentBlockhash := "BH" }

/-- A concrete swap-route response. -/
def demoRoute : SwapRouteResponse := { quote := demoQuote, raw_tx := demoRawTx }

/-- A concrete environment in which every remote call succeeds. -/
def demoEnv : SwapEnv :=
  { route := fun _ => Except.ok demoRoute
    submitDirect := fun _ => Except.ok { hash := "H" }
    submitAntiMev := fun _ _ =>
      Except.ok { bundle_id := "BID", last_valid_block_number := 999, tx_hash := "TH" }
    status := fun _ _ _ => Except.ok successStatus
    sign := fun s => String.append "SIGNED:" s }

/-- Concrete swap arguments; the caller passes an explicit `from_address`
different from the signer address. -/
def demoArgs (anti : Bool) : SwapArgs :=
  { token_in_address := "So11111111111111111111111111111111111111112"
    token_out_address := "HeLp6NuQkmYB4pYWo2zYs22mESHXPQYzXbB8n4V98jwC"
    in_amount := "10000000"
    slippage := 10
    swap_mode := SwapMode.EXACT_IN
    fee := 1/10000
    from_address := some "CALLER_SUPPLIED_ADDRESS"
    is_anti_mev := anti
    partner := none }

/-- Swap arguments asking for relay protection with a fee below the relay
minimum of 0.002. -/
def lowFeeAntiArgs : SwapArgs := { demoArgs true with fee := 1/1000 }

/-- Swap arguments with a fee above the maximum of 5. -/
def highFeeArgs : SwapArgs := { demoArgs false with fee := 6 }

end Gmgn

namespace Gmgn

/-! ## Helper lemmas: the polling loop -/

/-- One unfolding of the polling loop. -/
theorem waitAux_step (q : Nat → Except GmgnError TxStatusResponse) (h : String)
    (i t : ℚ) (k fuel : Nat) :
    waitAux q h i t k (fuel + 1) =
      if (k : ℚ) * i < t then
        match q k with
        | Except.ok s =>
          if s.success || s.failed || s.expired then WaitOutcome.status (k + 1) s
          else waitAux q h i t (k + 1) fuel
        | Except.error _ => waitAux q h i t (k + 1) fuel
      else WaitOutcome.timedOut k h t := rfl

/-- Fuel bound at the default interval 0.4s and timeout 60s. -/
theorem waitFuel_04_60 : waitFuel (2/5) 60 = 150 + 1 := by
  rw [waitFuel, if_neg (by norm_num), show (60:ℚ)/(2/5) = 150 by norm_num,
    show ⌈(150:ℚ)⌉ = 150 by rw [Int.ceil_eq_iff]; norm_num]
  rfl

/-- Fuel bound at interval 0.4s and timeout 1s. -/
theorem waitFuel_04_1 : waitFuel (2/5) 1 = 3 + 1 := by
  rw [waitFuel, if_neg (by norm_num), show (1:ℚ)/(2/5) = 5/2 by norm_num,
    show ⌈(5/2:ℚ)⌉ = 3 by rw [Int.ceil_eq_iff]; norm_num]
  rfl

/-- The loop only ever returns a status that passed the
`status.success or status.failed or status.expired` test. -/
theorem waitAux_status_terminal (q : Nat → Except GmgnError TxStatusResponse)
    (hash : String) (i t : ℚ) :
    ∀ (fuel k n : Nat) (s : TxStatusResponse),
      waitAux q hash i t k fuel = WaitOutcome.status n s →
      (s.success || s.failed || s.expired) = true := by
  intro fuel
  induction fuel with
  | zero => intro k n s hw; simp [waitAux] at hw
  | succ fuel ih =>
    intro k n s hw
    rw [waitAux] at hw
    split at hw
    · split at hw
      · split at hw
        · cases hw; assumption
        · exact ih _ _ _ hw
      · exact ih _ _ _ hw
    · cases hw

/-! ## Helper lemma: the request trace of a `swap` run -/

/-- Full characterization of the request trace of one `swap` run: the route
request goes out unless the fee check rejects; then exactly one of the two
submission posts, chosen by `is_anti_mev` (the relay path always with the
signer's address); then, when submission succeeds, one polling loop keyed by
the respective hash field of the submission response. -/
theorem swap_trace (signer : String) (env : SwapEnv) (a : SwapArgs) (i t : ℚ) :
    (swap signer env a i t).2 =
      if a.fee > 5 then []
      else
        NetEvent.getRoute (buildSwapRouteRequest signer a) ::
          match env.route (buildSwapRouteRequest signer a) with
          | Except.error _ => []
          | Except.ok quote =>
            if a.is_anti_mev then
              NetEvent.postSubmitAntiMev (env.sign quote.raw_tx.swapTransaction) signer ::
                match env.submitAntiMev (env.sign quote.raw_tx.swapTransaction) signer with
                | Except.error _ => []
                | Except.ok r =>
                  [NetEvent.pollStatus r.tx_hash quote.raw_tx.lastValidBlockHeight]
            else
              NetEvent.postSubmitTx (env.sign quote.raw_tx.swapTransaction) ::
                match env.submitDirect (env.sign quote.raw_tx.swapTransaction) with
                | Except.error _ => []
                | Except.ok r =>
                  [NetEvent.pollStatus r.hash quote.raw_tx.lastValidBlockHeight] := by
  by_cases hfee : a.fee > 5
  · simp [swap, get_swap_route, hfee]
  · rw [if_neg hfee]
    cases hr : env.route (buildSwapRouteRequest signer a) with
    | error e => simp [swap, get_swap_route, hfee, hr]
    | ok quote =>
      cases ha : a.is_anti_mev with
      | true =>
        cases hs : env.submitAntiMev (env.sign quote.raw_tx.swapTransaction) signer with
        | error e =>
          simp [swap, get_swap_route, hfee, hr, ha, submit_anti_mev_tx, orSignerAddress, hs]
        | ok r =>
          cases hw : wait_tx_status (env.status r.tx_hash quote.raw_tx.lastValidBlockHeight)
              r.tx_hash i t with
          | status n s =>
            simp [swap, get_swap_route, hfee, hr, ha, submit_anti_mev_tx, orSignerAddress,
              hs, hw]
          | timedOut n h2 t2 =>
            simp [swap, get_swap_route, hfee, hr, ha, submit_anti_mev_tx, orSignerAddress,
              hs, hw]
      | false =>
        cases hs : env.submitDirect (env.sign quote.raw_tx.swapTransaction) with
        | error e =>
          simp [swap, get_swap_route, hfee, hr, ha, submit_tx, hs]
        | ok r =>
          cases hw : wait_tx_status (env.status r.hash quote.raw_tx.lastValidBlockHeight)
              r.hash i t with
          | status n s =>
            simp [swap, get_swap_route, hfee, hr, ha, submit_tx, hs, hw]
          | timedOut n h2 t2 =>
            simp [swap, get_swap_route, hfee, hr, ha, submit_tx, hs, hw]

end Gmgn

namespace Gmgn

/-! ## Helper lemmas: base64, padding, blocks, CBC -/

/-- The sextet-to-character coding is injective below 64. -/
theorem b64CharVal_b64CharOf (s : Nat) (hs : s < 64) : b64CharVal (b64CharOf s) = s := by
  interval_cases s <;> decide

/-- No alphabet character is the padding character. -/
theorem b64CharOf_ne_eq (s : Nat) (hs : s < 64) : b64CharOf s ≠ '=' := by
  interval_cases s <;> decide

/-- base64 decoding inverts base64 encoding on byte strings. -/
theorem b64_roundtrip : ∀ l : List Nat, (∀ x ∈ l, x < 256) → b64decode (b64encode l) = l := by
  intro l
  induction l using b64encode.induct with
  | case1 => intro _; rfl
  | case2 a =>
    intro hb
    have ha : a < 256 := hb a (by simp)
    have h1 : a / 4 < 64 := by omega
    have h2 : a % 4 * 16 < 64 := by omega
    simp [b64encode, b64decode, b64CharVal_b64CharOf _ h1, b64CharVal_b64CharOf _ h2]
    omega
  | case3 a b =>
    intro hb
    have ha : a < 256 := hb a (by simp)
    have hbb : b < 256 := hb b (by simp)
    have h1 : a / 4 < 64 := by omega
    have h2 : a % 4 * 16 + b / 16 < 64 := by omega
    have h3 : b % 16 * 4 < 64 := by omega
    simp [b64encode, b64decode, b64CharOf_ne_eq _ h3, b64CharVal_b64CharOf _ h1,
      b64CharVal_b64CharOf _ h2, b64CharVal_b64CharOf _ h3]
    omega
  | case4 a b c rest ih =>
    intro hb
    have ha : a < 256 := hb a (by simp)
    have hbb : b < 256 := hb b (by simp)
    have hc : c < 256 := hb c (by simp)
    have h1 : a / 4 < 64 := by omega
    have h2 : a % 4 * 16 + b / 16 < 64 := by omega
    have h3 : b % 16 * 4 + c / 64 < 64 := by omega
    have h4 : c % 64 < 64 := by omega
    have hrest : ∀ x ∈ rest, x < 256 := fun x hx => hb x (by simp [hx])
    simp [b64encode, b64decode, b64CharOf_ne_eq _ h3, b64CharOf_ne_eq _ h4,
      b64CharVal_b64CharOf _ h1, b64CharVal_b64CharOf _ h2, b64CharVal_b64CharOf _ h3,
      b64CharVal_b64CharOf _ h4, ih hrest]
    omega

/-- The last element of a nonempty replicate. -/
theorem getLast?_replicate_succ (k v : Nat) : (List.replicate (k+1) v).getLast? = some v := by
  induction k with
  | zero => rfl
  | succ k ih => rw [List.replicate_succ, List.getLast?_cons, ih]; rfl

/-- Stripping PKCS#7 padding inverts applying it. -/
theorem unpadPKCS7_padPKCS7 (m : List Nat) : unpadPKCS7 (padPKCS7 m) = some m := by
  unfold padPKCS7 unpadPKCS7
  have hr : (List.replicate (16 - m.length % 16) (16 - m.length % 16)).length
      = 16 - m.length % 16 := List.length_replicate _ _
  have hlen : (m ++ List.replicate (16 - m.length % 16) (16 - m.length % 16)).length
      = m.length + (16 - m.length % 16) := by
    rw [List.length_append, hr]
  rw [if_neg (by rw [hlen]; omega)]
  rw [if_neg (by rw [hlen]; omega)]
  have hlast : (m ++ List.replicate (16 - m.length % 16) (16 - m.length % 16)).getLastD 0
      = 16 - m.length % 16 := by
    obtain ⟨k, hk⟩ : ∃ k, 16 - m.length % 16 = k + 1 := ⟨16 - m.length % 16 - 1, by omega⟩
    rw [List.getLastD_eq_getLast?, hk, List.getLast?_append_of_ne_nil _ (by simp),
      getLast?_replicate_succ]
    rfl
  rw [hlast]
  rw [if_neg (by omega), if_neg (by omega)]
  have hdrop : (m ++ List.replicate (16 - m.length % 16) (16 - m.length % 16)).drop
      ((m ++ List.replicate (16 - m.length % 16) (16 - m.length % 16)).length
        - (16 - m.length % 16))
      = List.replicate (16 - m.length % 16) (16 - m.length % 16) := by
    rw [hlen, show m.length + (16 - m.length % 16) - (16 - m.length % 16) = m.length by omega]
    exact List.drop_left m _
  rw [hdrop, if_pos (by simp [List.all_eq_true])]
  rw [hlen, show m.length + (16 - m.length % 16) - (16 - m.length % 16) = m.length by omega,
    List.take_left]

/-- Concatenating the 16-byte blocks recovers the byte string. -/
theorem flatten_toBlocks : ∀ l : List Nat, (toBlocks l).flatten = l := by
  intro l
  induction l using toBlocks.induct with
  | case1 => rw [toBlocks]; rfl
  | case2 l hne ih =>
    rw [toBlocks, if_neg hne, List.flatten_cons, ih, List.take_append_drop]

/-- Splitting the concatenation of 16-byte blocks recovers the blocks. -/
theorem toBlocks_flatten : ∀ bs : List (List Nat), (∀ b ∈ bs, b.length = 16) →
    toBlocks bs.flatten = bs := by
  intro bs
  induction bs with
  | nil => intro _; rw [List.flatten_nil, toBlocks]; simp
  | cons b rest ih =>
    intro hb
    have hbl : b.length = 16 := hb b (by simp)
    rw [List.flatten_cons, toBlocks,
      if_neg (by simp [← List.length_pos_iff_ne_nil, hbl])]
    rw [show (16:Nat) = b.length from hbl.symm, List.take_left, List.drop_left,
      ih (fun x hx => hb x (by simp [hx]))]

/-- Every block of a byte string of block-multiple length has length 16. -/
theorem toBlocks_length (l : List Nat) (hd : l.length % 16 = 0) :
    ∀ b ∈ toBlocks l, b.length = 16 := by
  induction l using toBlocks.induct with
  | case1 => intro b hb; rw [toBlocks] at hb; simp at hb
  | case2 l hne ih =>
    intro b hb
    have hl : 0 < l.length := List.length_pos.mpr hne
    have h16 : 16 ≤ l.length := by omega
    rw [toBlocks, if_neg hne] at hb
    rcases List.mem_cons.mp hb with h | h
    · rw [h, List.length_take]; omega
    · exact ih (by rw [List.length_drop]; omega) b h

/-- Block elements are elements of the original byte string. -/
theorem toBlocks_mem (l : List Nat) : ∀ b ∈ toBlocks l, ∀ x ∈ b, x ∈ l := by
  induction l using toBlocks.induct with
  | case1 => intro b hb; rw [toBlocks] at hb; simp at hb
  | case2 l hne ih =>
    intro b hb x hx
    rw [toBlocks, if_neg hne] at hb
    rcases List.mem_cons.mp hb with h | h
    · exact List.mem_of_mem_take (h ▸ hx)
    · exact List.mem_of_mem_drop (ih b h x hx)

/-- XOR-ing with the same mask twice is the identity. -/
theorem xorBytes_cancel : ∀ (p q : List Nat), p.length ≤ q.length →
    xorBytes (xorBytes p q) q = p := by
  intro p
  induction p with
  | nil => intro q _; rfl
  | cons x xs ih =>
    intro q hq
    cases q with
    | nil => simp at hq
    | cons y ys =>
      simp only [xorBytes, List.zipWith_cons_cons, List.cons.injEq]
      have hle : xs.length ≤ ys.length := by simp at hq; omega
      exact ⟨Nat.xor_cancel_right y x, by simpa [xorBytes] using ih ys hle⟩

/-- Each byte of an XOR is the XOR of a byte of each operand. -/
theorem xorBytes_mem (a : List Nat) : ∀ (b : List Nat), ∀ x ∈ xorBytes a b,
    ∃ u ∈ a, ∃ v ∈ b, x = u ^^^ v := by
  induction a with
  | nil => intro b x hx; simp [xorBytes] at hx
  | cons u us ih =>
    intro b x hx
    cases b with
    | nil => simp [xorBytes] at hx
    | cons v vs =>
      rw [xorBytes, List.zipWith_cons_cons] at hx
      rcases List.mem_cons.mp hx with h | h
      · exact ⟨u, by simp, v, by simp, h⟩
      · obtain ⟨u', hu', v', hv', hx'⟩ := ih vs x h
        exact ⟨u', by simp [hu'], v', by simp [hv'], hx'⟩

/-- Length of an XOR. -/
theorem xorBytes_length (a b : List Nat) :
    (xorBytes a b).length = min a.length b.length := by
  simp [xorBytes]

/-- CBC decryption inverts CBC encryption blockwise, given that the block
permutations invert each other on 16-byte blocks. -/
theorem cbcDec_cbcEnc (E D : List Nat → List Nat)
    (hD : ∀ b, b.length = 16 → D (E b) = b)
    (hElen : ∀ b, b.length = 16 → (E b).length = 16) :
    ∀ (bs : List (List Nat)) (prev : List Nat), (∀ b ∈ bs, b.length = 16) →
      prev.length = 16 → cbcDec D prev (cbcEnc E prev bs) = bs := by
  intro bs
  induction bs with
  | nil => intro prev _ _; rfl
  | cons p ps ih =>
    intro prev hbs hprev
    have hp : p.length = 16 := hbs p (by simp)
    have hxlen : (xorBytes p prev).length = 16 := by rw [xorBytes_length]; omega
    rw [cbcEnc, cbcDec, hD _ hxlen, xorBytes_cancel p prev (by omega),
      ih (E (xorBytes p prev)) (fun b hb => hbs b (by simp [hb])) (hElen _ hxlen)]

/-- CBC ciphertext blocks are 16-byte byte strings whenever the block
permutation produces such blocks and the inputs are such blocks. -/
theorem cbcEnc_blocks (E : List Nat → List Nat)
    (hElen : ∀ b, b.length = 16 → (E b).length = 16)
    (hEbytes : ∀ b, b.length = 16 → (∀ x ∈ b, x < 256) → ∀ x ∈ E b, x < 256) :
    ∀ (bs : List (List Nat)) (prev : List Nat),
      (∀ b ∈ bs, b.length = 16 ∧ ∀ x ∈ b, x < 256) →
      prev.length = 16 → (∀ x ∈ prev, x < 256) →
      ∀ c ∈ cbcEnc E prev bs, c.length = 16 ∧ ∀ x ∈ c, x < 256 := by
  intro bs
  induction bs with
  | nil => intro prev _ _ _ c hc; rw [cbcEnc] at hc; simp at hc
  | cons p ps ih =>
    intro prev hbs hprevl hprevb c hc
    obtain ⟨hpl, hpb⟩ := hbs p (by simp)
    have hxlen : (xorBytes p prev).length = 16 := by rw [xorBytes_length]; omega
    have hxbytes : ∀ x ∈ xorBytes p prev, x < 256 := by
      intro x hx
      obtain ⟨u, hu, v, hv, hxuv⟩ := xorBytes_mem p prev x hx
      have h28 : (256:ℕ) = 2^8 := rfl
      rw [hxuv, h28]
      exact Nat.xor_lt_two_pow (by rw [← h28]; exact hpb u hu)
        (by rw [← h28]; exact hprevb v hv)
    rw [cbcEnc] at hc
    rcases List.mem_cons.mp hc with h | h
    · rw [h]
      exact ⟨hElen _ hxlen, hEbytes _ hxlen hxbytes⟩
    · exact ih (E (xorBytes p prev)) (fun b hb => hbs b (by simp [hb]))
        (hElen _ hxlen) (hEbytes _ hxlen hxbytes) c h

/-- Padded plaintext bytes stay below 256 (padding bytes are at most 16). -/
theorem padPKCS7_bytes (pt : List Nat) (hpt : ∀ x ∈ pt, x < 256) :
    ∀ x ∈ padPKCS7 pt, x < 256 := by
  intro x hx
  unfold padPKCS7 at hx
  rcases List.mem_append.mp hx with h | h
  · exact hpt x h
  · have := List.eq_of_mem_replicate h
    omega

end Gmgn

namespace Gmgn

/-! ## The claims -/

/-- C2: `wait_tx_status` returns on the first terminal status observed: for a
remote status sequence [pending, pending, success] it performs exactly 3
status queries (not fewer, not more), stops polling immediately on the third,
and the returned value's `success` flag is true. -/
theorem wait_tx_status_three_queries_success
    (q : Nat → Except GmgnError TxStatusResponse) (hash : String)
    (s0 s1 s2 : TxStatusResponse)
    (hq0 : q 0 = Except.ok s0)
    (h0 : s0.success = false ∧ s0.failed = false ∧ s0.expired = false)
    (hq1 : q 1 = Except.ok s1)
    (h1 : s1.success = false ∧ s1.failed = false ∧ s1.expired = false)
    (hq2 : q 2 = Except.ok s2) (hs2 : s2.success = true) :
    wait_tx_status q hash (2/5) 60 = WaitOutcome.status 3 s2 ∧ s2.success = true := by
  refine ⟨?_, hs2⟩
  rw [wait_tx_status, waitFuel_04_60, waitAux_step]
  norm_num [hq0, h0.1, h0.2.1, h0.2.2]
  rw [show (150:Nat) = 149 + 1 from rfl, waitAux_step]
  norm_num [hq1, h1.1, h1.2.1, h1.2.2]
  rw [show (149:Nat) = 148 + 1 from rfl, waitAux_step]
  norm_num [hq2, hs2]

/-- Witness for C2 at the concrete sequence [pending, pending, success]. -/
theorem wait_tx_status_three_queries_success_witness :
    wait_tx_status (seqOracle [Except.ok pendingStatus, Except.ok pendingStatus,
        Except.ok successStatus]) "HASH" (2/5) 60 = WaitOutcome.status 3 successStatus
    ∧ successStatus.success = true :=
  wait_tx_status_three_queries_success
    (seqOracle [Except.ok pendingStatus, Except.ok pendingStatus, Except.ok successStatus])
    "HASH" pendingStatus pendingStatus successStatus
    rfl ⟨rfl, rfl, rfl⟩ rfl ⟨rfl, rfl, rfl⟩ rfl rfl

/-- C3: when every status query reports an all-pending status,
`wait_tx_status` with timeout 1s and interval 0.4s ends in the timeout
exception (carrying the hash and the timeout value) after at least 2 and at
most 3 query attempts; the loop body only runs while the elapsed time is
below the timeout. -/
theorem wait_tx_status_all_pending_timeout
    (q : Nat → Except GmgnError TxStatusResponse) (hash : String)
    (hq : ∀ k, ∃ s, q k = Except.ok s ∧ s.success = false ∧ s.failed = false
      ∧ s.expired = false) :
    ∃ n, wait_tx_status q hash (2/5) 1 = WaitOutcome.timedOut n hash 1
      ∧ 2 ≤ n ∧ n ≤ 3 ∧ ¬((n : ℚ) * (2/5) < 1) := by
  refine ⟨3, ?_, by norm_num, le_refl 3, by norm_num⟩
  obtain ⟨a0, hq0, h00, h01, h02⟩ := hq 0
  obtain ⟨a1, hq1, h10, h11, h12⟩ := hq 1
  obtain ⟨a2, hq2, h20, h21, h22⟩ := hq 2
  rw [wait_tx_status, waitFuel_04_1, waitAux_step]
  norm_num [hq0, h00, h01, h02]
  rw [show (3:Nat) = 2 + 1 from rfl, waitAux_step]
  norm_num [hq1, h10, h11, h12]
  rw [show (2:Nat) = 1 + 1 from rfl, waitAux_step]
  norm_num [hq2, h20, h21, h22]
  rw [show (1:Nat) = 0 + 1 from rfl, waitAux_step]
  norm_num

/-- Witness for C3 at a concrete all-pending oracle. -/
theorem wait_tx_status_all_pending_timeout_witness :
    ∃ n, wait_tx_status (fun _ => Except.ok pendingStatus) "HASH" (2/5) 1 =
        WaitOutcome.timedOut n "HASH" 1 ∧ 2 ≤ n ∧ n ≤ 3 ∧ ¬((n : ℚ) * (2/5) < 1) :=
  wait_tx_status_all_pending_timeout (fun _ => Except.ok pendingStatus) "HASH"
    (fun _ => ⟨pendingStatus, rfl, rfl, rfl, rfl⟩)

/-- C4: a status-query error raised during one polling iteration is swallowed
rather than propagated, polling continues, and a later query that returns a
terminal status still makes `wait_tx_status` return that status normally. -/
theorem wait_tx_status_swallows_query_error
    (q : Nat → Except GmgnError TxStatusResponse) (hash : String)
    (e : GmgnError) (s : TxStatusResponse)
    (hq0 : q 0 = Except.error e) (hq1 : q 1 = Except.ok s) (hs : s.success = true) :
    wait_tx_status q hash (2/5) 60 = WaitOutcome.status 2 s := by
  rw [wait_tx_status, waitFuel_04_60, waitAux_step]
  norm_num [hq0]
  rw [show (150:Nat) = 149 + 1 from rfl, waitAux_step]
  norm_num [hq1, hs]

/-- Witness for C4: one transport error, then a success status. -/
theorem wait_tx_status_swallows_query_error_witness :
    wait_tx_status (seqOracle [Except.error (GmgnError.http "GET" 500 "URL"),
        Except.ok successStatus]) "HASH" (2/5) 60 = WaitOutcome.status 2 successStatus :=
  wait_tx_status_swallows_query_error
    (seqOracle [Except.error (GmgnError.http "GET" 500 "URL"), Except.ok successStatus])
    "HASH" (GmgnError.http "GET" 500 "URL") successStatus rfl rfl rfl

/-- C10: every status value returned (not raised) by `wait_tx_status` has at
least one of its `success`, `failed`, `expired` flags true — it never returns
an all-pending status to its caller. -/
theorem wait_tx_status_never_returns_pending
    (q : Nat → Except GmgnError TxStatusResponse) (hash : String)
    (interval timeout : ℚ) (n : Nat) (s : TxStatusResponse)
    (hw : wait_tx_status q hash interval timeout = WaitOutcome.status n s) :
    (s.success || s.failed || s.expired) = true :=
  waitAux_status_terminal q hash interval timeout _ _ n s hw

/-- Witness for C10 at a concrete oracle whose first answer is terminal. -/
theorem wait_tx_status_never_returns_pending_witness :
    (successStatus.success || successStatus.failed || successStatus.expired) = true :=
  wait_tx_status_never_returns_pending (fun _ => Except.ok successStatus) "HASH"
    (2/5) 60 1 successStatus
    (by rw [wait_tx_status, waitFuel_04_60, waitAux_step]; norm_num [successStatus])

end Gmgn

namespace Gmgn

/-- C1: per `swap` invocation at most one submission request is issued and the
two submission paths are mutually exclusive: with `is_anti_mev` only the relay
post can appear (and when the quote step succeeded, exactly the relay post
appears, with polling keyed by the relay response's `tx_hash` field); without
it only the direct post can appear (and when the quote step succeeded, exactly
the direct post appears, with polling keyed by the response's `hash` field). -/
theorem swap_submission_exclusive (signer : String) (env : SwapEnv) (a : SwapArgs)
    (i t : ℚ) :
    ((swap signer env a i t).2.filter isSubmitEvent).length ≤ 1
    ∧ (a.is_anti_mev = true → ∀ tx, NetEvent.postSubmitTx tx ∉ (swap signer env a i t).2)
    ∧ (a.is_anti_mev = false →
        ∀ tx fa, NetEvent.postSubmitAntiMev tx fa ∉ (swap signer env a i t).2)
    ∧ (∀ quote, a.is_anti_mev = true →
        (get_swap_route signer env.route a).1 = Except.ok quote →
        ((swap signer env a i t).2.filter isSubmitEvent) =
          [NetEvent.postSubmitAntiMev (env.sign quote.raw_tx.swapTransaction) signer]
        ∧ ∀ r, env.submitAntiMev (env.sign quote.raw_tx.swapTransaction) signer
            = Except.ok r →
            NetEvent.pollStatus r.tx_hash quote.raw_tx.lastValidBlockHeight
              ∈ (swap signer env a i t).2)
    ∧ (∀ quote, a.is_anti_mev = false →
        (get_swap_route signer env.route a).1 = Except.ok quote →
        ((swap signer env a i t).2.filter isSubmitEvent) =
          [NetEvent.postSubmitTx (env.sign quote.raw_tx.swapTransaction)]
        ∧ ∀ r, env.submitDirect (env.sign quote.raw_tx.swapTransaction) = Except.ok r →
            NetEvent.pollStatus r.hash quote.raw_tx.lastValidBlockHeight
              ∈ (swap signer env a i t).2) := by
  rw [swap_trace]
  by_cases hfee : a.fee > 5
  · simp [hfee, get_swap_route, isSubmitEvent]
  · rw [if_neg hfee]
    cases hr : env.route (buildSwapRouteRequest signer a) with
    | error e => simp [hr, get_swap_route, hfee, isSubmitEvent]
    | ok quote =>
      cases ha : a.is_anti_mev with
      | true =>
        cases hs : env.submitAntiMev (env.sign quote.raw_tx.swapTransaction) signer with
        | error e => simp [hr, get_swap_route, hfee, ha, hs, isSubmitEvent]
        | ok r => simp [hr, get_swap_route, hfee, ha, hs, isSubmitEvent]
      | false =>
        cases hs : env.submitDirect (env.sign quote.raw_tx.swapTransaction) with
        | error e => simp [hr, get_swap_route, hfee, ha, hs, isSubmitEvent]
        | ok r => simp [hr, get_swap_route, hfee, ha, hs, isSubmitEvent]

/-- Witness for C1: in the all-success relay-mode environment the submission
trace is exactly one relay post. -/
theorem swap_submission_exclusive_witness :
    ((swap "SIG" demoEnv (demoArgs true) (2/5) 60).2.filter isSubmitEvent) =
      [NetEvent.postSubmitAntiMev (demoEnv.sign demoRoute.raw_tx.swapTransaction) "SIG"] :=
  ((swap_submission_exclusive "SIG" demoEnv (demoArgs true) (2/5) 60).2.2.2.1 demoRoute
    rfl (by norm_num [get_swap_route, demoArgs, demoEnv])).1

/-- C9: in `swap`'s relay path the caller-supplied `from_address` is never
forwarded to the relay submission: any relay post appearing in a `swap` run's
trace carries the signer's own address as its `from_address`, whatever
`from_address` the caller passed to `swap`. -/
theorem swap_relay_from_address_is_signer (signer : String) (env : SwapEnv)
    (a : SwapArgs) (i t : ℚ) (tx fa : String)
    (hmem : NetEvent.postSubmitAntiMev tx fa ∈ (swap signer env a i t).2) :
    fa = signer := by
  rw [swap_trace] at hmem
  by_cases hfee : a.fee > 5
  · simp [hfee] at hmem
  · rw [if_neg hfee] at hmem
    cases hr : env.route (buildSwapRouteRequest signer a) with
    | error e => simp [hr] at hmem
    | ok quote =>
      cases ha : a.is_anti_mev with
      | true =>
        cases hs : env.submitAntiMev (env.sign quote.raw_tx.swapTransaction) signer with
        | error e => simp [hr, ha, hs] at hmem; exact hmem.2
        | ok r => simp [hr, ha, hs] at hmem; exact hmem.2
      | false =>
        cases hs : env.submitDirect (env.sign quote.raw_tx.swapTransaction) with
        | error e => simp [hr, ha, hs] at hmem
        | ok r => simp [hr, ha, hs] at hmem

/-- Witness for C9: the demo arguments pass an explicit caller `from_address`,
yet the relay post in the trace carries the signer's address. -/
theorem swap_relay_from_address_is_signer_witness :
    NetEvent.postSubmitAntiMev (demoEnv.sign demoRoute.raw_tx.swapTransaction) "SIG"
      ∈ (swap "SIG" demoEnv (demoArgs true) (2/5) 60).2 ∧ "SIG" = "SIG" := by
  have hmem : NetEvent.postSubmitAntiMev (demoEnv.sign demoRoute.raw_tx.swapTransaction)
      "SIG" ∈ (swap "SIG" demoEnv (demoArgs true) (2/5) 60).2 := by
    rw [swap_trace]
    norm_num [demoEnv, demoArgs]
  exact ⟨hmem, swap_relay_from_address_is_signer "SIG" demoEnv (demoArgs true) (2/5) 60
    (demoEnv.sign demoRoute.raw_tx.swapTransaction) "SIG" hmem⟩

end Gmgn

namespace Gmgn

/-- C5: for every fee value strictly greater than 5, `get_swap_route` fails
with the invalid-argument error before any network call is attempted — the
outgoing GET request is never issued (the request trace is empty). -/
theorem get_swap_route_rejects_fee_above_five (signer : String)
    (net : SwapRouteRequest → Except GmgnError SwapRouteResponse) (a : SwapArgs)
    (hf : a.fee > 5) :
    get_swap_route signer net a =
      (Except.error (GmgnError.invalidArgument "GMGN_SOL_CLIENT: Fee must be less than 5"),
        []) := by
  simp [get_swap_route, hf]

/-- Witness for C5 at fee 6. -/
theorem get_swap_route_rejects_fee_above_five_witness :
    get_swap_route "SIG" demoEnv.route highFeeArgs =
      (Except.error (GmgnError.invalidArgument "GMGN_SOL_CLIENT: Fee must be less than 5"),
        []) :=
  get_swap_route_rejects_fee_above_five "SIG" demoEnv.route highFeeArgs
    (by norm_num [highFeeArgs, demoArgs])

/-- C6 counterexample: with relay protection requested and a fee of 0.001 —
below the relay-mode minimum of 0.002 — `get_swap_route` does NOT reject
before the network call: the outgoing GET request is issued.  This refutes
the claim that the relay minimum is enforced by the local swap-parameter
validation. -/
theorem relay_min_fee_counterexample :
    lowFeeAntiArgs.is_anti_mev = true ∧ lowFeeAntiArgs.fee < 1/500 ∧
    (get_swap_route "SIG" demoEnv.route lowFeeAntiArgs).2 =
      [NetEvent.getRoute (buildSwapRouteRequest "SIG" lowFeeAntiArgs)] := by
  refine ⟨rfl, by norm_num [lowFeeAntiArgs, demoArgs], ?_⟩
  norm_num [get_swap_route, lowFeeAntiArgs, demoArgs]

/-- C6 (amended): the relay-mode minimum fee of 0.002 is not enforced by the
local swap-parameter validation; the only local fee check is the `fee > 5`
rejection, applied regardless of the relay flag.  With relay protection
requested and any fee below 0.002 the request is still sent to the remote
service (which is left to enforce the minimum). -/
theorem get_swap_route_no_relay_min_validation (signer : String)
    (net : SwapRouteRequest → Except GmgnError SwapRouteResponse) (a : SwapArgs)
    (_hanti : a.is_anti_mev = true) (hlow : a.fee < 1/500) :
    get_swap_route signer net a =
      (net (buildSwapRouteRequest signer a),
        [NetEvent.getRoute (buildSwapRouteRequest signer a)]) := by
  have hfee : ¬ a.fee > 5 := by
    have : (1/500 : ℚ) < 5 := by norm_num
    linarith
  simp [get_swap_route, hfee]

/-- Witness for the amended C6 at fee 0.001 with relay protection on. -/
theorem get_swap_route_no_relay_min_validation_witness :
    get_swap_route "SIG" demoEnv.route lowFeeAntiArgs =
      (demoEnv.route (buildSwapRouteRequest "SIG" lowFeeAntiArgs),
        [NetEvent.getRoute (buildSwapRouteRequest "SIG" lowFeeAntiArgs)]) :=
  get_swap_route_no_relay_min_validation "SIG" demoEnv.route lowFeeAntiArgs rfl
    (by norm_num [lowFeeAntiArgs, demoArgs])

/-- C7 counterexample: constructing the client from the plaintext secret
`"RAW_SECRET"` (no encryption) yields an object that still holds the raw
secret in its `_pvk` attribute — the raw key material IS retained on the
constructed object, refuting the claim that it is not. -/
theorem initClient_retains_raw_secret_counterexample :
    initClient (fun _ => id) (fun s => String.append s "-ADDR") (fun _ => none)
        "RAW_SECRET" "" =
      Except.ok { _pvk := "RAW_SECRET", signer_address := "RAW_SECRET-ADDR" } := by
  rfl

/-- C7 (amended): construction has no effect beyond producing the client
state, but that state retains the raw private-key material: whenever
`__init__` succeeds, the stored `_pvk` is exactly the (decrypted) key string
the signing identity and address were derived from, and in the unencrypted
case it is the caller's raw secret itself. -/
theorem initClient_retention (cipherOf : String → (List Nat → List Nat))
    (addrOf : String → String) (bytesStr : List Nat → Option String)
    (pvkInput aesKeyInput : String) (st : ClientState)
    (h : initClient cipherOf addrOf bytesStr pvkInput aesKeyInput = Except.ok st) :
    st.signer_address = addrOf st._pvk ∧ (aesKeyInput = "" → st._pvk = pvkInput) := by
  unfold initClient at h
  split at h
  · split at h
    · cases h
    · split at h
      · cases h
      · split at h
        · cases h
        · have hne : aesKeyInput ≠ "" := by assumption
          cases h
          exact ⟨rfl, fun he => absurd he hne⟩
  · cases h
    exact ⟨rfl, fun _ => rfl⟩

/-- Witness for the amended C7 at the concrete unencrypted run. -/
theorem initClient_retention_witness :
    ({ _pvk := "RAW_SECRET", signer_address := "RAW_SECRET-ADDR" } : ClientState
      ).signer_address
      = String.append ({ _pvk := "RAW_SECRET", signer_address := "RAW_SECRET-ADDR" } :
        ClientState)._pvk "-ADDR"
    ∧ ("" = "" → ({ _pvk := "RAW_SECRET", signer_address := "RAW_SECRET-ADDR" } :
        ClientState)._pvk = "RAW_SECRET") :=
  initClient_retention (fun _ => id) (fun s => String.append s "-ADDR") (fun _ => none)
    "RAW_SECRET" "" { _pvk := "RAW_SECRET", signer_address := "RAW_SECRET-ADDR" } rfl

/-- C8: for every plaintext key material, block cipher pair inverse on
16-byte blocks (the AES-256 permutations for a 32-byte key), and 16-byte IV:
encrypting with CBC mode plus PKCS#7 padding, encoding base64(IV ‖
ciphertext), and then running the credential unlocker's decryption path
(base64-decode, split the IV at the block-size boundary, CBC-decrypt, unpad)
recovers exactly the original plaintext key material. -/
theorem decryptSecret_encryptSecret (E D : List Nat → List Nat) (iv pt : List Nat)
    (hD : ∀ b, b.length = 16 → D (E b) = b)
    (hElen : ∀ b, b.length = 16 → (E b).length = 16)
    (hEbytes : ∀ b, b.length = 16 → (∀ x ∈ b, x < 256) → ∀ x ∈ E b, x < 256)
    (hivl : iv.length = 16) (hivb : ∀ x ∈ iv, x < 256)
    (hptb : ∀ x ∈ pt, x < 256) :
    decryptSecret D (encryptSecret E iv pt) = some pt := by
  unfold encryptSecret decryptSecret
  have hpadlen : (padPKCS7 pt).length % 16 = 0 := by
    unfold padPKCS7
    simp
    omega
  have hblocks : ∀ b ∈ toBlocks (padPKCS7 pt), b.length = 16 ∧ ∀ x ∈ b, x < 256 :=
    fun b hb => ⟨toBlocks_length _ hpadlen b hb,
      fun x hx => padPKCS7_bytes pt hptb x (toBlocks_mem _ b hb x hx)⟩
  have henc := cbcEnc_blocks E hElen hEbytes (toBlocks (padPKCS7 pt)) iv hblocks hivl hivb
  have hallbytes : ∀ x ∈ iv ++ (cbcEnc E iv (toBlocks (padPKCS7 pt))).flatten, x < 256 := by
    intro x hx
    rcases List.mem_append.mp hx with h | h
    · exact hivb x h
    · obtain ⟨c, hc, hxc⟩ := List.mem_flatten.mp h
      exact (henc c hc).2 x hxc
  rw [b64_roundtrip _ hallbytes]
  simp only []
  rw [show (16:Nat) = iv.length from hivl.symm, List.take_left, List.drop_left]
  rw [toBlocks_flatten _ (fun c hc => (henc c hc).1)]
  rw [cbcDec_cbcEnc E D hD hElen _ iv (fun b hb => (hblocks b hb).1) hivl]
  rw [flatten_toBlocks]
  exact unpadPKCS7_padPKCS7 pt

/-- Witness for C8 with the identity block permutation, the zero IV and a
three-byte key material. -/
theorem decryptSecret_encryptSecret_witness :
    decryptSecret id (encryptSecret id (List.replicate 16 0) [1, 2, 3]) = some [1, 2, 3] :=
  decryptSecret_encryptSecret id id (List.replicate 16 0) [1, 2, 3]
    (fun _ _ => rfl) (fun _ hb => hb) (fun _ _ hb => hb)
    (List.length_replicate 16 0)
    (fun x hx => by rw [List.eq_of_mem_replicate hx]; omega)
    (by intro x hx; fin_cases hx <;> omega)

end Gmgn
